import Mathlib

/-
Shallow embedding of the mods_deploy config generator
(src/utils.py, src/configs.py, src/mods_deploy.py).

Modelling conventions:
 * A happi device record is its metadata: an association list from field
   names to string values.  `device['k']` is modelled by `mget`; a key that
   is absent reads as "" (the source only indexes keys that are present in
   every happi record or that schema validation has already established).
 * `schema.Schema({...}, ignore_extra_keys=True).validate(data)` is
   `validateS`: every schema key must be present and pass its predicate
   (after its `Use` transform chain); extra keys are dropped from the
   validated output; transforms are applied to the stored values.
 * Side effects are made explicit in `RunOut`: `files` is the list of
   (path, payload) pairs actually written, where the payload records the
   device list handed to `template.render` (the template text itself is an
   external collaborator and is not modelled); `logs` collects `print`
   output; `err = some msg` models an uncaught Python exception escaping
   the call with message `msg`.  `seqRuns` sequences calls: an exception
   stops the run but keeps the files already written.
-/

abbrev Metadata := List (String × String)

/-- `device['k']`: read a metadata field, "" when the key is absent. -/
def mget (m : Metadata) (k : String) : String := (m.lookup k).getD ""

def hasKey (m : Metadata) (k : String) : Bool := (m.lookup k).isSome

/-- One entry of a `schema.Schema` dict: the key, the `Use` transform chain
(identity when the source declares none) and the validation predicate,
applied to the transformed value. -/
structure FieldSpec where
  key : String
  tr : String → String
  check : String → Bool

/-- A record passes one field of a schema. -/
def fieldOk (m : Metadata) (f : FieldSpec) : Bool :=
  hasKey m f.key && f.check (f.tr (mget m f.key))

/-- `Schema({...}, ignore_extra_keys=True).validate(data)`. -/
def validateS (s : List FieldSpec) (m : Metadata) : Except String Metadata :=
  match s.find? (fun f => !(hasKey m f.key)) with
  | some f => .error ("Missing key: " ++ f.key)
  | none =>
    match s.find? (fun f => !(f.check (f.tr (mget m f.key)))) with
    | some f => .error ("Key " ++ f.key ++ " error")
    | none => .ok (m.filterMap (fun p =>
        match s.find? (fun f => f.key == p.1) with
        | some f => some (p.1, f.tr p.2)
        | none => none))

def exceptOk (e : Except String Metadata) : Bool :=
  match e with
  | .ok _ => true
  | .error _ => false

/- ---------------- Schemas (utils.py lines 10-60, 129-140, 186-201,
   246-260, 306-327) ---------------- -/

def anyStr : String → Bool := fun _ => true

def idTr : String → String := id

/-- Python str.lower / str.upper (all values here are ASCII), written as a
structural map over the character data so that it evaluates by reduction. -/
def lowerStr (s : String) : String := String.mk (s.data.map Char.toLower)

def upperStr (s : String) : String := String.mk (s.data.map Char.toUpper)

def toLowerTr : String → String := lowerStr

def toUpperTr : String → String := upperStr

def archOk (s : String) : Bool :=
  ["linux-x86", "linux-x86_64", "rhel5-x86_64", "rhel7-x86_64",
   "rhel7-gcc494-x86_64"].contains s

def base_ioc_schema : List FieldSpec :=
  [⟨"ioc_engineer", idTr, anyStr⟩,
   ⟨"ioc_release", idTr, anyStr⟩,
   ⟨"ioc_location", idTr, anyStr⟩,
   ⟨"ioc_arch", idTr, archOk⟩]

/-- Elliptec channel predicate: membership is tested on the lowercased
string, but no `Use` transform normalizes the stored value. -/
def ellChannelOk (s : String) : Bool :=
  ["1", "2", "3", "4", "5", "6", "7", "8", "9",
   "a", "b", "c", "d", "e", "f"].contains (lowerStr s)

def ellModelOk (s : String) : Bool :=
  ["ell6", "ell9", "ell14", "ell18", "ell20"].contains (lowerStr s)

def ell_schema : List FieldSpec :=
  base_ioc_schema ++
  [⟨"ioc_channel", idTr, ellChannelOk⟩,
   ⟨"prefix", idTr, anyStr⟩,
   ⟨"ioc_serial", idTr, anyStr⟩,
   ⟨"ioc_base", idTr, anyStr⟩,
   ⟨"ioc_alias", idTr, anyStr⟩,
   ⟨"ioc_name", idTr, anyStr⟩,
   ⟨"ioc_model", idTr, ellModelOk⟩]

def yesNoOk (s : String) : Bool := ["yes", "no"].contains s

def evrChannelOk (s : String) : Bool :=
  ["0", "1", "2", "3", "4", "5", "6", "7", "8", "9", "A", "B"].contains s

def qmini_schema : List FieldSpec :=
  base_ioc_schema ++
  [⟨"prefix", idTr, anyStr⟩,
   ⟨"ioc_serial", idTr, anyStr⟩,
   ⟨"ioc_name", idTr, anyStr⟩,
   ⟨"ioc_use_evr", toLowerTr, yesNoOk⟩,
   ⟨"ioc_evr_channel", toUpperTr, evrChannelOk⟩]

def basler_schema : List FieldSpec :=
  base_ioc_schema ++
  [⟨"prefix", idTr, anyStr⟩,
   ⟨"ioc_name", idTr, anyStr⟩,
   ⟨"ioc_use_evr", toLowerTr, yesNoOk⟩,
   ⟨"ioc_evr_channel", toUpperTr, evrChannelOk⟩,
   ⟨"ioc_cam_model", idTr, anyStr⟩,
   ⟨"ioc_ip", idTr, anyStr⟩,
   ⟨"ioc_net_if", idTr, anyStr⟩,
   ⟨"ioc_net_if_num", idTr, anyStr⟩,
   ⟨"ioc_http_port", idTr, anyStr⟩]

def thorlabs_wfs_schema : List FieldSpec :=
  base_ioc_schema ++
  [⟨"prefix", idTr, anyStr⟩,
   ⟨"ioc_name", idTr, anyStr⟩,
   ⟨"ioc_use_evr", toLowerTr, yesNoOk⟩,
   ⟨"ioc_evr_channel", toUpperTr, evrChannelOk⟩,
   ⟨"ioc_model", idTr, anyStr⟩,
   ⟨"ioc_id_num", idTr, anyStr⟩,
   ⟨"ioc_lenslet_pitch", idTr, anyStr⟩]

def smaract_schema : List FieldSpec :=
  base_ioc_schema ++
  [⟨"prefix", idTr, anyStr⟩,
   ⟨"ioc_ip", idTr, anyStr⟩,
   ⟨"ioc_base", idTr, anyStr⟩,
   ⟨"ioc_name", idTr, anyStr⟩,
   ⟨"ioc_channel", idTr, anyStr⟩,
   ⟨"ioc_alias", idTr, anyStr⟩,
   ⟨"type", idTr, anyStr⟩]

def smaract_tt_schema : List FieldSpec :=
  base_ioc_schema ++
  [⟨"prefix", idTr, anyStr⟩,
   ⟨"ioc_ip", idTr, anyStr⟩,
   ⟨"ioc_base", idTr, anyStr⟩,
   ⟨"ioc_name", idTr, anyStr⟩,
   ⟨"ioc_tilt_channel", idTr, anyStr⟩,
   ⟨"ioc_tip_channel", idTr, anyStr⟩,
   ⟨"ioc_tilt_suffix", idTr, anyStr⟩,
   ⟨"ioc_tip_suffix", idTr, anyStr⟩,
   ⟨"ioc_alias", idTr, anyStr⟩,
   ⟨"type", idTr, anyStr⟩]

/- ---------------- Observable effects ---------------- -/

/-- The observable outcome of a call: files written (path and the device
list passed to the renderer), print output, and an escaping exception. -/
structure RunOut where
  files : List (String × List Metadata)
  logs : List String
  err : Option String
deriving DecidableEq, Repr

def withLog (msg : String) (r : RunOut) : RunOut := ⟨r.files, msg :: r.logs, r.err⟩

/-- Sequence effectful calls: files and logs accumulate in order; an
uncaught exception stops the run but keeps what was already written. -/
def seqRuns : List RunOut → RunOut
  | [] => ⟨[], [], none⟩
  | r :: rest =>
    match r.err with
    | some e => ⟨r.files, r.logs, some e⟩
    | none =>
      ⟨r.files ++ (seqRuns rest).files, r.logs ++ (seqRuns rest).logs,
       (seqRuns rest).err⟩

/-- `msg` has `v` as a substring (used to formalize "the diagnostic names
the value v"). -/
def startsL : List Char → List Char → Bool
  | [], _ => true
  | _ :: _, [] => false
  | a :: as, b :: bs => a == b && startsL as bs

def subL (pat : List Char) : List Char → Bool
  | [] => pat.isEmpty
  | c :: cs => startsL pat (c :: cs) || subL pat cs

def mentions (msg v : String) : Bool := subL v.data msg.data

/- ---------------- make_Makefile (utils.py lines 23-43) ---------------- -/

/-- Filesystem: association list from path to file content. -/
abbrev Fs := List (String × String)

/-- The three fixed directives written by `make_Makefile`. -/
def makefileContent : String :=
  "# SLAC PCDS Makefile for building templated IOC instances\n" ++
  "IOC_CFG  += $(wildcard *.cfg)\n" ++
  "include /reg/g/pcds/controls/macro/RULES_EXPAND\n"

/-- utils.make_Makefile: strip trailing slashes, then write Makefile only
when `os.path.isfile` says it is absent.  Returns the new filesystem and
the printed lines. -/
def stripSlashes (location : String) : String :=
  String.mk ((location.data.reverse.dropWhile (fun c => c == '/')).reverse)

def make_Makefile (location : String) (fs : Fs) : Fs × List String :=
  let loc := stripSlashes location
  let path := loc ++ "/Makefile"
  if (fs.lookup path).isSome then
    (fs, ["Found Makefile in " ++ loc ++ ". Continuing..."])
  else
    ((path, makefileContent) :: fs, [])

/- ---------------- MakeElliptecConfig (utils.py lines 63-126) ----------- -/

/-- Body of the validation loop of MakeElliptecConfig (utils.py 80-87):
records matching the serial are validated; a failing record contributes two
printed lines and is dropped. -/
def elliptecStep (serial : String) (acc : List Metadata × List String)
    (device : Metadata) : List Metadata × List String :=
  if mget device "ioc_serial" == serial then
    match validateS ell_schema device with
    | .ok v => (acc.1 ++ [v], acc.2)
    | .error e =>
      (acc.1, acc.2 ++ ["Found execption with device " ++ mget device "name", e])
  else acc

def elliptecScan (devices : List Metadata) (serial : String) :
    List Metadata × List String :=
  devices.foldl (elliptecStep serial) ([], [])

/-- The controller-wide fields checked for agreement (utils.py line 97). -/
def commonFields : List String := ["ioc_release", "ioc_base", "ioc_arch", "ioc_name"]

/-- The first common field whose value set over the group has more than one
element, mirroring the `for field in common` loop; `List.dedup` plays the
role of Python's `set` (the loop only uses its cardinality). -/
def firstDisagreement (valid : List Metadata) : Option String :=
  commonFields.find? (fun field => 1 < ((valid.map (fun v => mget v field)).dedup.length))

def MakeElliptecConfig (devices : List Metadata) (serial location : String) : RunOut :=
  let valid := (elliptecScan devices serial).1
  let logs := (elliptecScan devices serial).2
  if valid.length == 0 then
    ⟨[], logs ++ ["No valid configs for serial " ++ serial ++ " found"], none⟩
  else
    let channels := valid.map (fun d => mget d "ioc_channel")
    if channels.dedup.length < channels.length then
      ⟨[], logs,
       some ("Multiple identical channels for controller serial number " ++ serial)⟩
    else
      match firstDisagreement valid with
      | some field =>
        ⟨[], logs, some ("Multiple values for field " ++ field ++ " detected")⟩
      | none =>
        let filename := mget (valid.headD []) "ioc_name" ++ ".cfg"
        ⟨[(location ++ "/" ++ filename, devices)],
         logs ++ ["Writing " ++ location ++ "/" ++ filename], none⟩

/-- utils.MakeElliptecConfigs: one MakeElliptecConfig call per distinct
serial.  CPython iterates `set(serials)` in an unspecified hash order; the
embedding fixes the order produced by `List.dedup`.  No claim depends on
the iteration order itself. -/
def MakeElliptecConfigs (devices : List Metadata) (location : String) : RunOut :=
  seqRuns (((devices.map (fun d => mget d "ioc_serial")).dedup).map
    (fun serial =>
      withLog ("Writing elliptec configurations to " ++ location)
        (MakeElliptecConfig devices serial location)))

/- ---------------- MakeQminiConfig (utils.py lines 143-183) ------------- -/

def MakeQminiConfig (device : Metadata) (location : String) : RunOut :=
  match validateS qmini_schema device with
  | .error e =>
    ⟨[], ["Found execption with device " ++ mget device "name", e], none⟩
  | .ok _ =>
    let filename := mget device "ioc_name" ++ ".cfg"
    ⟨[(location ++ "/" ++ filename, [device])],
     ["Writing " ++ location ++ "/" ++ filename], none⟩

def MakeQminiConfigs (devices : List Metadata) (location : String) : RunOut :=
  seqRuns (devices.map (fun device =>
    withLog ("Writing qmini configurations to " ++ location)
      (MakeQminiConfig device location)))

/- ---------------- MakeBaslerConfig (utils.py lines 204-244) ------------ -/

def MakeBaslerConfig (device : Metadata) (location : String) : RunOut :=
  match validateS basler_schema device with
  | .error e =>
    ⟨[], ["Found execption with device " ++ mget device "name", e], none⟩
  | .ok _ =>
    let filename := mget device "ioc_name" ++ ".cfg"
    ⟨[(location ++ "/" ++ filename, [device])],
     ["Writing " ++ location ++ "/" ++ filename], none⟩

def MakeBaslerConfigs (devices : List Metadata) (location : String) : RunOut :=
  seqRuns (devices.map (fun device =>
    withLog ("Writing Basler configurations to " ++ location)
      (MakeBaslerConfig device location)))

/- ---------------- MakeThorlabsWfsConfig (utils.py lines 263-303) ------- -/

def MakeThorlabsWfsConfig (device : Metadata) (location : String) : RunOut :=
  match validateS thorlabs_wfs_schema device with
  | .error e =>
    ⟨[], ["Found execption with device " ++ mget device "name", e], none⟩
  | .ok _ =>
    let filename := mget device "ioc_name" ++ ".cfg"
    ⟨[(location ++ "/" ++ filename, [device])],
     ["Writing " ++ location ++ "/" ++ filename], none⟩

def MakeThorlabsWfsConfigs (devices : List Metadata) (location : String) : RunOut :=
  seqRuns (devices.map (fun device =>
    withLog ("Writing Thorlabs WFS configurations to " ++ location)
      (MakeThorlabsWfsConfig device location)))

/- ---------------- MakeSmarActConfig (utils.py lines 330-407) ----------- -/

/-- Validation loop of MakeSmarActConfig (utils.py 350-366): records on the
given ip are validated against the schema selected by their `type`;
unrecognized types are logged and dropped. -/
def smaractStep (ip : String) (acc : List Metadata × List String)
    (device : Metadata) : List Metadata × List String :=
  if mget device "ioc_ip" == ip then
    if mget device "type" == "pcdsdevices.SmarActMotor" then
      match validateS smaract_schema device with
      | .ok v => (acc.1 ++ [v], acc.2)
      | .error e =>
        (acc.1, acc.2 ++ ["Found execption with device " ++ mget device "name", e])
    else if mget device "type" == "pcdsdevices.SmarActTipTilt" then
      match validateS smaract_tt_schema device with
      | .ok v => (acc.1 ++ [v], acc.2)
      | .error e =>
        (acc.1, acc.2 ++ ["Found execption with device " ++ mget device "name", e])
    else
      (acc.1,
       acc.2 ++ ["Device " ++ mget device "name" ++ " is not a recognized SmarAct type."])
  else acc

def smaractScan (devices : List Metadata) (ip : String) :
    List Metadata × List String :=
  devices.foldl (smaractStep ip) ([], [])

/-- Channel collection of MakeSmarActConfig (utils.py 372-374): note the
filters test the unprefixed type names. -/
def smaractChannels (valid : List Metadata) : List String :=
  (valid.filter (fun d => mget d "type" == "SmarActMotor")).map
    (fun d => mget d "ioc_channel")
  ++ (valid.filter (fun d => mget d "type" == "SmarActTipTilt")).map
    (fun d => mget d "ioc_tip_channel")
  ++ (valid.filter (fun d => mget d "type" == "SmarActTipTilt")).map
    (fun d => mget d "ioc_tilt_channel")

def MakeSmarActConfig (devices : List Metadata) (ip location : String) : RunOut :=
  let valid := (smaractScan devices ip).1
  let logs := (smaractScan devices ip).2
  if valid.length == 0 then
    ⟨[], logs ++ ["No valid configs for ip " ++ ip ++ " found"], none⟩
  else
    let channels := smaractChannels valid
    if channels.dedup.length < channels.length then
      ⟨[], logs,
       some ("Multiple identical channels for controller ip address " ++ ip)⟩
    else
      match firstDisagreement valid with
      | some field =>
        ⟨[], logs, some ("Multiple values for field " ++ field ++ " detected")⟩
      | none =>
        let filename := mget (valid.headD []) "ioc_name" ++ ".cfg"
        ⟨[(location ++ "/" ++ filename, devices)],
         logs ++ ["Writing " ++ location ++ "/" ++ filename], none⟩

def MakeSmarActConfigs (devices : List Metadata) (location : String) : RunOut :=
  seqRuns (((devices.map (fun d => mget d "ioc_ip")).dedup).map
    (fun ip =>
      withLog ("Writing SmarAct configurations to " ++ location)
        (MakeSmarActConfig devices ip location)))

/- ---------------- configs.py dispatcher (lines 17-69) ------------------ -/

/-- configs.py dev_map, in source (insertion) order. -/
def dev_map : List (String × (List Metadata → String → RunOut)) :=
  [("Elliptec", MakeElliptecConfigs),
   ("Qmini", MakeQminiConfigs),
   ("BaslerGigE", MakeBaslerConfigs),
   ("ThorlabsWfs40", MakeThorlabsWfsConfigs),
   ("SmarAct", MakeSmarActConfigs)]

/-- One iteration of the `for dev in dev_map.keys()` loop of
configs.make_tile_configs (lines 62-69). -/
def typeStep (results : List Metadata) (directory : String) :
    String × (List Metadata → String → RunOut) → RunOut
  | (tag, func) =>
    let devs := results.filter (fun r => mget r "ioc_type" == tag)
    let found := "Found " ++ toString devs.length ++ " devices of type " ++ tag
    if 0 < devs.length then withLog found (func devs directory)
    else ⟨[], [found, "Skipping device type " ++ tag], none⟩

/-- configs.make_tile_configs.  The happi registry mutation and the database
query are external collaborators; `results` is the list the query returned.
There is no try/except around the per-type handler calls, so an exception
raised by one handler escapes and ends the whole loop. -/
def make_tile_configs (tile directory : String) (results : List Metadata) : RunOut :=
  if tile == "lm1k4_com" then
    seqRuns (dev_map.map (typeStep results directory))
  else ⟨[], [], some ("Unrecognized TILE " ++ tile)⟩

/- ---------------- mods_deploy.py dispatcher (lines 14-54) -------------- -/

namespace ModsDeploy

def dev_map_tags : List String := ["pcdsdevices.Elliptec", "pcdsdevices.Qmini"]

/-- The `for dev in dev_map.keys()` loop of mods_deploy.make_tile_configs
(lines 50-54).  `handlers` stands for the looked-up per-type functions
(`make_ell_configs` / `make_qmini_configs`), which utils.py does not
define - importing the real module raises ImportError, and the loop body
itself indexes `devs[0]` with no emptiness guard, which raises IndexError
when a device type has no matching records. -/
def typeLoop (results : List Metadata)
    (handlers : String → List Metadata → RunOut) : List String → RunOut
  | [] => ⟨[], [], none⟩
  | tag :: rest =>
    let devs := results.filter (fun r => mget r "type" == tag)
    let found := "Found " ++ toString devs.length ++ " devices of type " ++ tag
    if devs.isEmpty then
      ⟨[], [found], some "IndexError: list index out of range"⟩
    else
      let r := handlers (mget (devs.headD []) "type") devs
      match r.err with
      | some e => ⟨r.files, found :: r.logs, some e⟩
      | none =>
        ⟨r.files ++ (typeLoop results handlers rest).files,
         (found :: r.logs) ++ (typeLoop results handlers rest).logs,
         (typeLoop results handlers rest).err⟩

def make_tile_configs (tile : String) (results : List Metadata)
    (handlers : String → List Metadata → RunOut) : RunOut :=
  if tile == "lm1k4_com" then typeLoop results handlers dev_map_tags
  else ⟨[], [], some ("Unrecognized TILE " ++ tile)⟩

end ModsDeploy

/- ---------------- Concrete test fixtures ---------------- -/

/-- A well-formed Elliptec happi record (name, serial, channel, ioc_name,
release are parameters; remaining fields fixed and schema-conformant). -/
def mkEll (nm sv ch iocnm rel : String) : Metadata :=
  [("name", nm), ("ioc_engineer", "eng"), ("ioc_release", rel),
   ("ioc_location", "loc"), ("ioc_arch", "linux-x86_64"),
   ("ioc_channel", ch), ("prefix", "PFX"), ("ioc_serial", sv),
   ("ioc_base", "IOC1"), ("ioc_alias", "al"), ("ioc_name", iocnm),
   ("ioc_model", "ell6"), ("ioc_type", "Elliptec")]

/-- A well-formed Qmini happi record. -/
def mkQmini (nm iocnm : String) : Metadata :=
  [("name", nm), ("ioc_engineer", "eng"), ("ioc_release", "R1"),
   ("ioc_location", "loc"), ("ioc_arch", "linux-x86_64"),
   ("prefix", "PFX"), ("ioc_serial", "QS1"), ("ioc_name", iocnm),
   ("ioc_use_evr", "no"), ("ioc_evr_channel", "3"), ("ioc_type", "Qmini")]

/-- A well-formed SmarAct motor happi record. -/
def mkSmarAct (nm iocnm ipv : String) : Metadata :=
  [("name", nm), ("ioc_engineer", "eng"), ("ioc_release", "R1"),
   ("ioc_location", "loc"), ("ioc_arch", "linux-x86_64"),
   ("prefix", "PFX"), ("ioc_ip", ipv), ("ioc_base", "B1"),
   ("ioc_name", iocnm), ("ioc_channel", "1"), ("ioc_alias", "al"),
   ("type", "pcdsdevices.SmarActMotor"), ("ioc_type", "SmarAct")]

/-- Run input: a valid Qmini record plus two SmarAct records on one
controller that disagree on ioc_name (a fatal SmarAct conflict). -/
def c1res : List Metadata :=
  [mkQmini "q1" "qdev", mkSmarAct "s1" "sm1" "IP1", mkSmarAct "s2" "sm2" "IP1"]

/-- Run input: an Elliptec controller group with a duplicate channel plus a
valid, conflict-free Qmini record. -/
def c1cex : List Metadata :=
  [mkEll "d1" "S1" "1" "dev1" "R1", mkEll "d2" "S1" "1" "dev1" "R1",
   mkQmini "q1" "qdev"]

/-- Device list for one Elliptec run: controller S1 with channels 1 and 2,
plus a record on a different controller S2. -/
def c3devs : List Metadata :=
  [mkEll "d1" "S1" "1" "dev1" "R1", mkEll "d2" "S1" "2" "dev1" "R1",
   mkEll "x1" "S2" "1" "dev2" "R1"]

/-- The validated output of an mkEll record: the schema keys of the record
in input order (the extra keys name and ioc_type are dropped; all field
transforms are the identity, so values are unchanged). -/
def mkEllValid (sv ch iocnm rel : String) : Metadata :=
  [("ioc_engineer", "eng"), ("ioc_release", rel), ("ioc_location", "loc"),
   ("ioc_arch", "linux-x86_64"), ("ioc_channel", ch), ("prefix", "PFX"),
   ("ioc_serial", sv), ("ioc_base", "IOC1"), ("ioc_alias", "al"),
   ("ioc_name", iocnm), ("ioc_model", "ell6")]

/- ---------------- Helper lemmas ---------------- -/

theorem dedup_length_lt_iff {α : Type} [DecidableEq α] (l : List α) :
    l.dedup.length < l.length ↔ ¬ l.Nodup := by
  constructor
  · intro h hn
    rw [List.dedup_eq_self.mpr hn] at h
    exact Nat.lt_irrefl _ h
  · intro hn
    rcases Nat.lt_or_ge l.dedup.length l.length with h | h
    · exact h
    · exfalso
      have hsub := List.dedup_sublist l
      have heq : l.dedup = l := hsub.eq_of_length (Nat.le_antisymm hsub.length_le h)
      exact hn (heq ▸ l.nodup_dedup)

theorem dedup_length_le_one {α : Type} [DecidableEq α] (l : List α) :
    l.dedup.length ≤ 1 ↔ ∀ a ∈ l, ∀ b ∈ l, a = b := by
  constructor
  · intro h a ha b hb
    have ha' : a ∈ l.dedup := List.mem_dedup.mpr ha
    have hb' : b ∈ l.dedup := List.mem_dedup.mpr hb
    cases hd : l.dedup with
    | nil => rw [hd] at ha'; exact absurd ha' (List.not_mem_nil a)
    | cons x t =>
      cases ht : t with
      | nil =>
        rw [hd, ht] at ha' hb'
        simp at ha' hb'
        rw [ha', hb']
      | cons y u =>
        rw [hd, ht] at h
        simp at h
  · intro h
    cases hd : l.dedup with
    | nil => simp
    | cons x t =>
      cases ht : t with
      | nil => simp
      | cons y u =>
        exfalso
        have hnd : (x :: y :: u).Nodup := by
          rw [← ht, ← hd]; exact l.nodup_dedup
        have hx : x ∈ l := List.mem_dedup.mp (by rw [hd, ht]; exact List.mem_cons_self _ _)
        have hy : y ∈ l := List.mem_dedup.mp (by rw [hd, ht]; simp)
        have hxy := h x hx y hy
        rw [List.nodup_cons] at hnd
        exact hnd.1 (by rw [hxy]; simp)

theorem one_lt_dedup_length {α : Type} [DecidableEq α] (l : List α) :
    1 < l.dedup.length ↔ ∃ a ∈ l, ∃ b ∈ l, a ≠ b := by
  constructor
  · intro h
    by_contra hc
    push_neg at hc
    have hle := (dedup_length_le_one l).mpr hc
    omega
  · rintro ⟨a, ha, b, hb, hab⟩
    by_contra hc
    push_neg at hc
    exact hab ((dedup_length_le_one l).mp hc a ha b hb)

theorem seqRuns_cons_err_none (r : RunOut) (rest : List RunOut) (h : r.err = none) :
    seqRuns (r :: rest) =
      ⟨r.files ++ (seqRuns rest).files, r.logs ++ (seqRuns rest).logs,
       (seqRuns rest).err⟩ := by
  simp [seqRuns, h]

theorem seqRuns_all_err_none (rs : List RunOut) (h : ∀ r ∈ rs, r.err = none) :
    seqRuns rs = ⟨rs.flatMap RunOut.files, rs.flatMap RunOut.logs, none⟩ := by
  induction rs with
  | nil => rfl
  | cons r rest ih =>
    have hr : r.err = none := h r (List.mem_cons_self _ _)
    rw [seqRuns_cons_err_none r rest hr, ih (fun x hx => h x (List.mem_cons_of_mem _ hx))]
    simp

theorem elliptecStep_acc (serial : String) (vs : List Metadata) (ls : List String)
    (d : Metadata) :
    elliptecStep serial (vs, ls) d =
      (vs ++ (elliptecStep serial ([], []) d).1,
       ls ++ (elliptecStep serial ([], []) d).2) := by
  unfold elliptecStep
  by_cases hs : (mget d "ioc_serial" == serial) = true
  · simp only [hs, if_true]
    cases hv : validateS ell_schema d <;> simp
  · simp [hs]

theorem elliptecScan_go (serial : String) (devices : List Metadata) :
    ∀ (vs : List Metadata) (ls : List String),
      devices.foldl (elliptecStep serial) (vs, ls) =
        (vs ++ (elliptecScan devices serial).1, ls ++ (elliptecScan devices serial).2) := by
  induction devices with
  | nil => intro vs ls; simp [elliptecScan]
  | cons d ds ih =>
    intro vs ls
    have hscan : elliptecScan (d :: ds) serial =
        ((elliptecStep serial ([], []) d).1 ++ (elliptecScan ds serial).1,
         (elliptecStep serial ([], []) d).2 ++ (elliptecScan ds serial).2) := by
      rw [elliptecScan, List.foldl_cons]
      exact ih _ _
    rw [List.foldl_cons, elliptecStep_acc, ih, hscan]
    simp [List.append_assoc]

theorem elliptecScan_cons (serial : String) (d : Metadata) (ds : List Metadata) :
    elliptecScan (d :: ds) serial =
      ((elliptecStep serial ([], []) d).1 ++ (elliptecScan ds serial).1,
       (elliptecStep serial ([], []) d).2 ++ (elliptecScan ds serial).2) := by
  rw [elliptecScan, List.foldl_cons]
  exact elliptecScan_go serial ds _ _

theorem elliptecScan_eq (devices : List Metadata) (serial : String) :
    elliptecScan devices serial =
      ((devices.filter (fun d => mget d "ioc_serial" == serial)).filterMap
         (fun d => (validateS ell_schema d).toOption),
       (devices.filter (fun d => mget d "ioc_serial" == serial)).flatMap
         (fun d => match validateS ell_schema d with
           | .ok _ => []
           | .error e => ["Found execption with device " ++ mget d "name", e])) := by
  induction devices with
  | nil => rfl
  | cons d ds ih =>
    rw [elliptecScan_cons, ih]
    by_cases hs : (mget d "ioc_serial" == serial) = true
    · cases hv : validateS ell_schema d with
      | ok v =>
        simp [elliptecStep, hs, hv, List.filter_cons, Except.toOption]
      | error e =>
        simp [elliptecStep, hs, hv, List.filter_cons, Except.toOption]
    · simp [elliptecStep, hs, List.filter_cons]

theorem MakeQminiConfig_err_none (device : Metadata) (location : String) :
    (MakeQminiConfig device location).err = none := by
  cases hv : validateS qmini_schema device <;> simp [MakeQminiConfig, hv]

theorem MakeQminiConfigs_parts (devices : List Metadata) (location : String) :
    (MakeQminiConfigs devices location).err = none ∧
    (MakeQminiConfigs devices location).files =
      devices.flatMap (fun d => (MakeQminiConfig d location).files) := by
  unfold MakeQminiConfigs
  rw [seqRuns_all_err_none]
  · constructor
    · rfl
    · simp only [List.flatMap_map]
      simp [withLog]
  · intro r hr
    obtain ⟨d, hd, rfl⟩ := List.mem_map.mp hr
    simp [withLog, MakeQminiConfig_err_none]

theorem lookup_validOut (s : List FieldSpec) (m : Metadata) (key : String) :
    (m.filterMap (fun p =>
        match s.find? (fun f => f.key == p.1) with
        | some f => some (p.1, f.tr p.2)
        | none => none)).lookup key =
      match s.find? (fun f => f.key == key) with
      | some f => (m.lookup key).map f.tr
      | none => none := by
  induction m with
  | nil => cases s.find? (fun f => f.key == key) <;> simp
  | cons p m ih =>
    obtain ⟨a, b⟩ := p
    by_cases hk : (key == a) = true
    · have hk' : key = a := by simpa using hk
      subst hk'
      cases hf : s.find? (fun f => f.key == key) with
      | some f => simp [List.filterMap_cons, hf, List.lookup]
      | none => simp [List.filterMap_cons, hf, List.lookup, ih]
    · have hk2 : (key == a) = false := by
        cases hx : (key == a)
        · rfl
        · exact absurd hx hk
      cases hf : s.find? (fun f => f.key == a) with
      | some f => simp [List.filterMap_cons, hf, List.lookup, hk2, ih]
      | none => simp [List.filterMap_cons, hf, List.lookup, hk2, ih]

theorem validateS_ok_mget (s : List FieldSpec) (m v : Metadata) (key : String)
    (f : FieldSpec) (hok : validateS s m = .ok v)
    (hf : s.find? (fun g => g.key == key) = some f) (hid : f.tr = idTr) :
    mget v key = mget m key := by
  unfold validateS at hok
  cases h1 : s.find? (fun g => !(hasKey m g.key)) with
  | some g => rw [h1] at hok; exact absurd hok (by simp)
  | none =>
    rw [h1] at hok
    cases h2 : s.find? (fun g => !(g.check (g.tr (mget m g.key)))) with
    | some g => rw [h2] at hok; exact absurd hok (by simp)
    | none =>
      rw [h2] at hok
      rw [Except.ok.injEq] at hok
      rw [← hok]
      unfold mget
      rw [lookup_validOut s m key, hf]
      cases m.lookup key <;> simp [hid, idTr]

theorem smaract_valid_type (devices : List Metadata) (ip : String) :
    ∀ v ∈ (smaractScan devices ip).1,
      mget v "type" = "pcdsdevices.SmarActMotor" ∨
      mget v "type" = "pcdsdevices.SmarActTipTilt" := by
  have key : ∀ (ds : List Metadata) (acc : List Metadata × List String),
      (∀ v ∈ acc.1, mget v "type" = "pcdsdevices.SmarActMotor" ∨
        mget v "type" = "pcdsdevices.SmarActTipTilt") →
      ∀ v ∈ (ds.foldl (smaractStep ip) acc).1,
        mget v "type" = "pcdsdevices.SmarActMotor" ∨
        mget v "type" = "pcdsdevices.SmarActTipTilt" := by
    intro ds
    induction ds with
    | nil => intro acc h; exact h
    | cons d rest ih =>
      intro acc hacc
      rw [List.foldl_cons]
      apply ih
      intro v hv
      unfold smaractStep at hv
      by_cases hip : (mget d "ioc_ip" == ip) = true
      · rw [if_pos hip] at hv
        by_cases ht1 : (mget d "type" == "pcdsdevices.SmarActMotor") = true
        · rw [if_pos ht1] at hv
          cases hval : validateS smaract_schema d with
          | ok w =>
            rw [hval] at hv
            rcases (by simpa using hv : v ∈ acc.1 ∨ v = w) with h | h
            · exact hacc v h
            · subst h
              left
              have hm := validateS_ok_mget smaract_schema d v "type"
                ⟨"type", idTr, anyStr⟩ hval rfl rfl
              rw [hm]
              exact eq_of_beq ht1
          | error e =>
            rw [hval] at hv
            exact hacc v (by simpa using hv)
        · rw [if_neg ht1] at hv
          by_cases ht2 : (mget d "type" == "pcdsdevices.SmarActTipTilt") = true
          · rw [if_pos ht2] at hv
            cases hval : validateS smaract_tt_schema d with
            | ok w =>
              rw [hval] at hv
              rcases (by simpa using hv : v ∈ acc.1 ∨ v = w) with h | h
              · exact hacc v h
              · subst h
                right
                have hm := validateS_ok_mget smaract_tt_schema d v "type"
                  ⟨"type", idTr, anyStr⟩ hval rfl rfl
                rw [hm]
                exact eq_of_beq ht2
            | error e =>
              rw [hval] at hv
              exact hacc v (by simpa using hv)
          · rw [if_neg ht2] at hv
            exact hacc v (by simpa using hv)
      · rw [if_neg hip] at hv
        exact hacc v hv
  intro v hv
  exact key devices ([], []) (by intro x hx; exact absurd hx (List.not_mem_nil x)) v hv

/- ---------------- Claim theorems ---------------- -/

/-- Claim C8: make_Makefile writes the fixed three-directive Makefile to a
target directory only when none exists there, never rewrites an existing
one, and calling it twice leaves the filesystem of the first call
unchanged (idempotent, first-writer-wins). -/
theorem c8_makefile_first_writer_wins (location : String) (fs : Fs) :
    (make_Makefile location (make_Makefile location fs).1).1 =
      (make_Makefile location fs).1 ∧
    (make_Makefile location fs).1.lookup (stripSlashes location ++ "/Makefile") =
      some ((fs.lookup (stripSlashes location ++ "/Makefile")).getD makefileContent) := by
  unfold make_Makefile
  cases h : fs.lookup (stripSlashes location ++ "/Makefile") with
  | some c => simp [h]
  | none => simp [h, List.lookup]

/-- Claim C4 (code evaluated at the failing input): on a run whose device
list has one valid Qmini record and no records of type pcdsdevices.Elliptec,
the mods_deploy.py dispatcher raises IndexError at `devs[0]` instead of
logging a skip and returning normally, and writes nothing.  (The configs.py
dispatcher and the per-group empty check in utils.py do skip correctly.) -/
theorem c4_mods_deploy_empty_type_raises :
    (ModsDeploy.make_tile_configs "lm1k4_com" [mkQmini "q1" "qdev"]
        (fun _ _ => ⟨[], [], none⟩)).err =
      some "IndexError: list index out of range" ∧
    (ModsDeploy.make_tile_configs "lm1k4_com" [mkQmini "q1" "qdev"]
        (fun _ _ => ⟨[], [], none⟩)).files = [] := by
  decide

/-- Claim C3 (code evaluated at the failing input): on controller S1 of
c3devs, exactly one file dev1.cfg is written, but its render payload is the
whole per-type device list - including the record x1 that belongs to the
different controller S2 - because MakeElliptecConfig renders devs=devices
rather than the validated per-serial group. -/
theorem c3_render_payload_not_group :
    (MakeElliptecConfig c3devs "S1" "/t").err = none ∧
    (MakeElliptecConfig c3devs "S1" "/t").files = [("/t/dev1.cfg", c3devs)] ∧
    mget (mkEll "x1" "S2" "1" "dev2" "R1") "ioc_serial" = "S2" ∧
    mkEll "x1" "S2" "1" "dev2" "R1" ∈ c3devs := by
  decide

/-- Claim C2 (amended): a controller group with a duplicate channel makes
the consistency check raise a ValueError whose message names the controller
key (but not the repeated channel value), and the failing call emits zero
files; the propagating error also stops any group iterated after it in the
same MakeElliptecConfigs run, while groups iterated before keep theirs. -/
theorem c2_duplicate_channel_amended (devices : List Metadata)
    (serial location : String)
    (h0 : (elliptecScan devices serial).1 ≠ [])
    (h1 : ¬ ((elliptecScan devices serial).1.map (fun d => mget d "ioc_channel")).Nodup) :
    (MakeElliptecConfig devices serial location).files = [] ∧
    (MakeElliptecConfig devices serial location).err =
      some ("Multiple identical channels for controller serial number " ++ serial) := by
  have hlen : (((elliptecScan devices serial).1.length == 0) = false) := by
    rw [beq_eq_false_iff_ne]
    simpa [List.length_eq_zero] using h0
  have hdup : ((elliptecScan devices serial).1.map
        (fun d => mget d "ioc_channel")).dedup.length <
      ((elliptecScan devices serial).1.map (fun d => mget d "ioc_channel")).length :=
    (dedup_length_lt_iff _).mpr h1
  simp only [MakeElliptecConfig, hlen]
  rw [if_neg (by simp), if_pos hdup]
  exact ⟨rfl, rfl⟩

theorem c2_duplicate_channel_amended_witness :
    (MakeElliptecConfig
        [mkEll "d1" "S1" "7" "dev1" "R1", mkEll "d2" "S1" "7" "dev1" "R1"]
        "S1" "/t").files = [] ∧
    (MakeElliptecConfig
        [mkEll "d1" "S1" "7" "dev1" "R1", mkEll "d2" "S1" "7" "dev1" "R1"]
        "S1" "/t").err =
      some ("Multiple identical channels for controller serial number " ++ "S1") :=
  c2_duplicate_channel_amended _ "S1" "/t" (by decide) (by decide)

/-- Claim C2 counterexample: a controller group (serial S1) with channel 7
assigned twice does fail, but the diagnostic message names only the
controller key and does not contain the repeated channel value 7, contrary
to the claim. -/
theorem c2_message_lacks_value_counterexample :
    ((elliptecScan [mkEll "d1" "S1" "7" "dev1" "R1", mkEll "d2" "S1" "7" "dev1" "R1"]
        "S1").1.map (fun d => mget d "ioc_channel")) = ["7", "7"] ∧
    (MakeElliptecConfig
        [mkEll "d1" "S1" "7" "dev1" "R1", mkEll "d2" "S1" "7" "dev1" "R1"]
        "S1" "/t").err =
      some "Multiple identical channels for controller serial number S1" ∧
    mentions "Multiple identical channels for controller serial number S1" "S1" = true ∧
    mentions "Multiple identical channels for controller serial number S1" "7" = false := by
  decide

/-- Claim C6 (amended): in a nonempty validated controller group with
distinct channels, disagreement on ioc_release (the first controller-wide
field checked) makes the consistency check raise a ValueError that names the
field - but not the conflicting values - and zero files are emitted; if all
four controller-wide fields agree (whatever other fields do), the agreement
check does not fail and one file is written. -/
theorem c6_field_agreement_amended (devices : List Metadata)
    (serial location : String)
    (h0 : (elliptecScan devices serial).1 ≠ [])
    (h1 : ((elliptecScan devices serial).1.map (fun d => mget d "ioc_channel")).Nodup) :
    ((∃ a ∈ (elliptecScan devices serial).1, ∃ b ∈ (elliptecScan devices serial).1,
        mget a "ioc_release" ≠ mget b "ioc_release") →
      (MakeElliptecConfig devices serial location).err =
          some "Multiple values for field ioc_release detected" ∧
        (MakeElliptecConfig devices serial location).files = []) ∧
    ((∀ f ∈ commonFields, ∀ a ∈ (elliptecScan devices serial).1,
        ∀ b ∈ (elliptecScan devices serial).1, mget a f = mget b f) →
      (MakeElliptecConfig devices serial location).err = none ∧
        (MakeElliptecConfig devices serial location).files.length = 1) := by
  have hlen : (((elliptecScan devices serial).1.length == 0) = false) := by
    rw [beq_eq_false_iff_ne]
    simpa [List.length_eq_zero] using h0
  have hnodup : ¬ (((elliptecScan devices serial).1.map
        (fun d => mget d "ioc_channel")).dedup.length <
      ((elliptecScan devices serial).1.map (fun d => mget d "ioc_channel")).length) := by
    intro hcon
    exact ((dedup_length_lt_iff _).mp hcon) h1
  constructor
  · rintro ⟨a, ha, b, hb, hab⟩
    have hgt : 1 < ((elliptecScan devices serial).1.map
        (fun v => mget v "ioc_release")).dedup.length := by
      apply (one_lt_dedup_length _).mpr
      exact ⟨mget a "ioc_release", List.mem_map.mpr ⟨a, ha, rfl⟩,
             mget b "ioc_release", List.mem_map.mpr ⟨b, hb, rfl⟩, hab⟩
    have hfd : firstDisagreement (elliptecScan devices serial).1 = some "ioc_release" := by
      have hd : (decide (1 < ((elliptecScan devices serial).1.map
          (fun v => mget v "ioc_release")).dedup.length)) = true := decide_eq_true hgt
      simp only [firstDisagreement, commonFields, List.find?_cons, hd]
    simp only [MakeElliptecConfig, hlen]
    rw [if_neg (by simp), if_neg hnodup, hfd]
    exact ⟨rfl, rfl⟩
  · intro hagree
    have hfd : firstDisagreement (elliptecScan devices serial).1 = none := by
      unfold firstDisagreement
      rw [List.find?_eq_none]
      intro f hf
      simp only [decide_eq_true_eq]
      intro hlt
      rcases (one_lt_dedup_length _).mp hlt with ⟨x, hx, y, hy, hxy⟩
      obtain ⟨a, ha, rfl⟩ := List.mem_map.mp hx
      obtain ⟨b, hb, rfl⟩ := List.mem_map.mp hy
      exact hxy (hagree f hf a ha b hb)
    simp only [MakeElliptecConfig, hlen]
    rw [if_neg (by simp), if_neg hnodup, hfd]
    exact ⟨rfl, rfl⟩

theorem c6_field_agreement_amended_witness :
    (MakeElliptecConfig
        [mkEll "d1" "S1" "1" "dev1" "RA", mkEll "d2" "S1" "2" "dev1" "RB"]
        "S1" "/t").err = some "Multiple values for field ioc_release detected" ∧
    (MakeElliptecConfig
        [mkEll "d1" "S1" "1" "dev1" "RA", mkEll "d2" "S1" "2" "dev1" "RB"]
        "S1" "/t").files = [] :=
  (c6_field_agreement_amended _ "S1" "/t" (by decide) (by decide)).1 (by decide)

/-- Claim C6 counterexample: two records on controller S1 that disagree on
ioc_release (values RA and RB) do make the consistency check fail, but the
diagnostic names only the field; it contains neither conflicting value, so
the claim that it names the field and the conflicting values is false. -/
theorem c6_message_lacks_values_counterexample :
    (MakeElliptecConfig
        [mkEll "d1" "S1" "1" "dev1" "RA", mkEll "d2" "S1" "2" "dev1" "RB"]
        "S1" "/t").err = some "Multiple values for field ioc_release detected" ∧
    mentions "Multiple values for field ioc_release detected" "ioc_release" = true ∧
    mentions "Multiple values for field ioc_release detected" "RA" = false ∧
    mentions "Multiple values for field ioc_release detected" "RB" = false := by
  decide

/-- Claim C5: validation is a subset check: a record whose schema fields all
satisfy their constraints validates, and it still validates after an extra
field unknown to the schema is added to its metadata. -/
theorem c5_validation_subset (s : List FieldSpec) (m : Metadata) (k v : String)
    (hreq : s.all (fun f => fieldOk m f) = true)
    (hext : s.all (fun f => !(f.key == k)) = true) :
    exceptOk (validateS s m) = true ∧
    exceptOk (validateS s ((k, v) :: m)) = true := by
  have hget : ∀ f ∈ s, (((k, v) :: m).lookup f.key) = m.lookup f.key := by
    intro f hf
    have hk : (f.key == k) = false := by
      simpa using List.all_eq_true.mp hext f hf
    simp [List.lookup, hk]
  have hok : ∀ f ∈ s, hasKey m f.key = true ∧ f.check (f.tr (mget m f.key)) = true := by
    intro f hf
    have h := List.all_eq_true.mp hreq f hf
    unfold fieldOk at h
    rw [Bool.and_eq_true] at h
    exact h
  constructor
  · unfold validateS
    rw [show s.find? (fun f => !(hasKey m f.key)) = none from
        List.find?_eq_none.mpr (fun f hf => by simp [(hok f hf).1])]
    rw [show s.find? (fun f => !(f.check (f.tr (mget m f.key)))) = none from
        List.find?_eq_none.mpr (fun f hf => by simp [(hok f hf).2])]
    rfl
  · unfold validateS
    rw [show s.find? (fun f => !(hasKey ((k, v) :: m) f.key)) = none from
        List.find?_eq_none.mpr (fun f hf => by
          have h1 := (hok f hf).1
          unfold hasKey at h1 ⊢
          rw [hget f hf]
          simp [h1])]
    rw [show s.find? (fun f => !(f.check (f.tr (mget ((k, v) :: m) f.key)))) = none from
        List.find?_eq_none.mpr (fun f hf => by
          have h2 := (hok f hf).2
          unfold mget at h2 ⊢
          rw [hget f hf]
          simp [h2])]
    rfl

theorem c5_validation_subset_witness :
    (ell_schema.all (fun f => fieldOk (mkEll "d1" "S1" "1" "dev1" "R1") f) = true) ∧
    exceptOk (validateS ell_schema
      (("favorite_color", "blue") :: mkEll "d1" "S1" "1" "dev1" "R1")) = true :=
  ⟨by decide,
   (c5_validation_subset ell_schema (mkEll "d1" "S1" "1" "dev1" "R1")
      "favorite_color" "blue" (by decide) (by decide)).2⟩

/-- Claim C7: a record failing schema validation is dropped with a logged
diagnostic naming the device and the validation detail, and the remaining
records in the list are still processed: the validated group is exactly the
per-record filterMap of the survivors, the log is the per-record
concatenation of the failure diagnostics, and the Qmini per-record driver
never raises. -/
theorem c7_validation_failure_keeps_siblings (devices : List Metadata) (serial : String) :
    (elliptecScan devices serial).1 =
      (devices.filter (fun d => mget d "ioc_serial" == serial)).filterMap
        (fun d => (validateS ell_schema d).toOption) ∧
    (elliptecScan devices serial).2 =
      (devices.filter (fun d => mget d "ioc_serial" == serial)).flatMap
        (fun d => match validateS ell_schema d with
          | .ok _ => []
          | .error e => ["Found execption with device " ++ mget d "name", e]) ∧
    ∀ location, (MakeQminiConfigs devices location).err = none := by
  refine ⟨?_, ?_, ?_⟩
  · rw [elliptecScan_eq]
  · rw [elliptecScan_eq]
  · intro location
    exact (MakeQminiConfigs_parts devices location).1

/-- Claim C9: the SmarAct duplicate-channel ValueError is unreachable: the
channel-collection filters test the unprefixed type names SmarActMotor and
SmarActTipTilt while every validated record carries a pcdsdevices.-prefixed
type, so the collected channel list is always empty, and the only error
MakeSmarActConfig can raise is a controller-wide field disagreement, never
the duplicate-channel conflict. -/
theorem c9_smaract_duplicate_check_unreachable (devices : List Metadata)
    (ip location : String) :
    smaractChannels ((smaractScan devices ip).1) = [] ∧
    ((MakeSmarActConfig devices ip location).err = none ∨
      ∃ f ∈ commonFields,
        (MakeSmarActConfig devices ip location).err =
          some ("Multiple values for field " ++ f ++ " detected")) := by
  have hch : smaractChannels ((smaractScan devices ip).1) = [] := by
    unfold smaractChannels
    have h1 : (smaractScan devices ip).1.filter
        (fun d => mget d "type" == "SmarActMotor") = [] := by
      rw [List.filter_eq_nil_iff]
      intro a ha
      rcases smaract_valid_type devices ip a ha with h | h <;> rw [h] <;> decide
    have h2 : (smaractScan devices ip).1.filter
        (fun d => mget d "type" == "SmarActTipTilt") = [] := by
      rw [List.filter_eq_nil_iff]
      intro a ha
      rcases smaract_valid_type devices ip a ha with h | h <;> rw [h] <;> decide
    rw [h1, h2]
    rfl
  refine ⟨hch, ?_⟩
  by_cases hlen : (((smaractScan devices ip).1.length == 0) = true)
  · left
    simp only [MakeSmarActConfig, hlen, if_true]
  · have hlen' : (((smaractScan devices ip).1.length == 0) = false) :=
      Bool.eq_false_iff.mpr hlen
    simp only [MakeSmarActConfig, hlen']
    rw [if_neg (by simp), hch, if_neg (by simp)]
    cases hfd : firstDisagreement (smaractScan devices ip).1 with
    | none => left; rfl
    | some f =>
      right
      refine ⟨f, ?_, rfl⟩
      unfold firstDisagreement at hfd
      exact List.mem_of_find?_eq_some hfd

/-- Claim C1 counterexample: an input run holding an Elliptec controller
group with a fatal duplicate-channel conflict together with a valid,
conflict-free Qmini record produces no files at all - the Elliptec
ValueError escapes make_tile_configs before the Qmini type is dispatched -
contradicting the claimed isolation. -/
theorem c1_conflict_not_isolated_counterexample :
    exceptOk (validateS qmini_schema (mkQmini "q1" "qdev")) = true ∧
    (make_tile_configs "lm1k4_com" "/t" c1cex).files = [] ∧
    (make_tile_configs "lm1k4_com" "/t" c1cex).err =
      some "Multiple identical channels for controller serial number S1" := by
  decide

/-- Claim C1 (amended): a device type produces its expected files only when
every type dispatched before it in the fixed dev_map order (Elliptec,
Qmini, BaslerGigE, ThorlabsWfs40, SmarAct) raises no conflict: whenever the
Elliptec handler does not raise, a valid Qmini record's file is produced,
even if a type dispatched later (e.g. SmarAct) has a fatal conflict; a
conflict in a type dispatched before would instead abort the rest of the
run. -/
theorem c1_type_isolation_amended (results : List Metadata) (directory : String)
    (qd : Metadata) (hmem : qd ∈ results)
    (hq : (mget qd "ioc_type" == "Qmini") = true)
    (hv : exceptOk (validateS qmini_schema qd) = true)
    (he : (MakeElliptecConfigs
        (results.filter (fun r => mget r "ioc_type" == "Elliptec")) directory).err
      = none) :
    (directory ++ "/" ++ mget qd "ioc_name" ++ ".cfg") ∈
      (make_tile_configs "lm1k4_com" directory results).files.map Prod.fst := by
  have hmain : make_tile_configs "lm1k4_com" directory results =
      seqRuns (dev_map.map (typeStep results directory)) := by
    unfold make_tile_configs
    rw [if_pos (show (("lm1k4_com" : String) == "lm1k4_com") = true from rfl)]
  rw [hmain]
  rw [show dev_map.map (typeStep results directory) =
      [typeStep results directory ("Elliptec", MakeElliptecConfigs),
       typeStep results directory ("Qmini", MakeQminiConfigs),
       typeStep results directory ("BaslerGigE", MakeBaslerConfigs),
       typeStep results directory ("ThorlabsWfs40", MakeThorlabsWfsConfigs),
       typeStep results directory ("SmarAct", MakeSmarActConfigs)] from rfl]
  have ht1 : (typeStep results directory ("Elliptec", MakeElliptecConfigs)).err = none := by
    simp only [typeStep]
    by_cases hl : 0 < (results.filter (fun r => mget r "ioc_type" == "Elliptec")).length
    · rw [if_pos hl]
      simpa [withLog] using he
    · rw [if_neg hl]
  have hqmem : qd ∈ results.filter (fun r => mget r "ioc_type" == "Qmini") :=
    List.mem_filter.mpr ⟨hmem, hq⟩
  have hqlen : 0 < (results.filter (fun r => mget r "ioc_type" == "Qmini")).length :=
    List.length_pos.mpr (List.ne_nil_of_mem hqmem)
  have ht2f : (typeStep results directory ("Qmini", MakeQminiConfigs)).files =
      (MakeQminiConfigs (results.filter (fun r => mget r "ioc_type" == "Qmini"))
        directory).files := by
    simp only [typeStep]
    rw [if_pos hqlen]
    rfl
  have ht2e : (typeStep results directory ("Qmini", MakeQminiConfigs)).err = none := by
    simp only [typeStep]
    rw [if_pos hqlen]
    simpa [withLog] using (MakeQminiConfigs_parts
      (results.filter (fun r => mget r "ioc_type" == "Qmini")) directory).1
  have hfile : (directory ++ "/" ++ mget qd "ioc_name" ++ ".cfg") ∈
      (MakeQminiConfigs (results.filter (fun r => mget r "ioc_type" == "Qmini"))
        directory).files.map Prod.fst := by
    rw [(MakeQminiConfigs_parts _ _).2]
    apply List.mem_map.mpr
    refine ⟨(directory ++ "/" ++ (mget qd "ioc_name" ++ ".cfg"), [qd]), ?_, ?_⟩
    · apply List.mem_flatMap.mpr
      refine ⟨qd, hqmem, ?_⟩
      cases hval : validateS qmini_schema qd with
      | error e =>
        rw [hval] at hv
        exact absurd hv (by simp [exceptOk])
      | ok w => simp [MakeQminiConfig, hval]
    · simp [String.append_assoc]
  rw [seqRuns_cons_err_none _ _ ht1]
  rw [seqRuns_cons_err_none _ _ ht2e]
  simp only [List.map_append, List.mem_append]
  right
  left
  rw [ht2f]
  exact hfile

theorem c1_type_isolation_amended_witness :
    ("/t" ++ "/" ++ mget (mkQmini "q1" "qdev") "ioc_name" ++ ".cfg") ∈
      (make_tile_configs "lm1k4_com" "/t" c1res).files.map Prod.fst ∧
    (make_tile_configs "lm1k4_com" "/t" c1res).err =
      some "Multiple values for field ioc_name detected" :=
  ⟨c1_type_isolation_amended c1res "/t" (mkQmini "q1" "qdev") (by decide) (by decide)
      (by decide) (by decide),
   by decide⟩

theorem validateS_mkEll (nm sv ch iocnm rel : String) (h : ellChannelOk ch = true) :
    validateS ell_schema (mkEll nm sv ch iocnm rel) = .ok (mkEllValid sv ch iocnm rel) := by
  have hm : ellModelOk "ell6" = true := by decide
  have ha : archOk "linux-x86_64" = true := by decide
  simp [validateS, ell_schema, base_ioc_schema, mkEll, mkEllValid, hasKey, mget,
        anyStr, idTr, h, hm, ha, List.find?, List.lookup, List.filterMap]

theorem MakeElliptecConfig_success (devices : List Metadata) (serial location : String)
    (h0 : (elliptecScan devices serial).1 ≠ [])
    (h1 : ((elliptecScan devices serial).1.map (fun d => mget d "ioc_channel")).Nodup)
    (h2 : ∀ f ∈ commonFields, ∀ a ∈ (elliptecScan devices serial).1,
        ∀ b ∈ (elliptecScan devices serial).1, mget a f = mget b f) :
    (MakeElliptecConfig devices serial location).err = none ∧
    (MakeElliptecConfig devices serial location).files =
      [(location ++ "/" ++
          (mget ((elliptecScan devices serial).1.headD []) "ioc_name" ++ ".cfg"),
        devices)] := by
  have hlen : (((elliptecScan devices serial).1.length == 0) = false) := by
    rw [beq_eq_false_iff_ne]
    simpa [List.length_eq_zero] using h0
  have hnodup : ¬ (((elliptecScan devices serial).1.map
        (fun d => mget d "ioc_channel")).dedup.length <
      ((elliptecScan devices serial).1.map (fun d => mget d "ioc_channel")).length) :=
    fun hcon => ((dedup_length_lt_iff _).mp hcon) h1
  have hfd : firstDisagreement (elliptecScan devices serial).1 = none := by
    unfold firstDisagreement
    rw [List.find?_eq_none]
    intro f hf
    simp only [decide_eq_true_eq]
    intro hlt
    rcases (one_lt_dedup_length _).mp hlt with ⟨x, hx, y, hy, hxy⟩
    obtain ⟨a, ha, rfl⟩ := List.mem_map.mp hx
    obtain ⟨b, hb, rfl⟩ := List.mem_map.mp hy
    exact hxy (h2 f hf a ha b hb)
  simp only [MakeElliptecConfig, hlen]
  rw [if_neg (by simp), if_neg hnodup, hfd]
  exact ⟨rfl, rfl⟩

/-- Claim C10: the Elliptec channel constraint tests membership of the
lowercased string but stores the value unnormalized, so two records on one
controller whose channels differ only in case both validate, count as
distinct in the duplicate-channel check, and one config file is written. -/
theorem c10_case_insensitive_channels (ch1 ch2 : String)
    (hne : ch1 ≠ ch2) (_hcase : lowerStr ch1 = lowerStr ch2)
    (hc1 : ellChannelOk ch1 = true) (hc2 : ellChannelOk ch2 = true) :
    ((elliptecScan [mkEll "d1" "S1" ch1 "dev1" "R1", mkEll "d2" "S1" ch2 "dev1" "R1"]
        "S1").1.map (fun d => mget d "ioc_channel") = [ch1, ch2]) ∧
    (MakeElliptecConfig [mkEll "d1" "S1" ch1 "dev1" "R1", mkEll "d2" "S1" ch2 "dev1" "R1"]
        "S1" "/t").err = none ∧
    (MakeElliptecConfig [mkEll "d1" "S1" ch1 "dev1" "R1", mkEll "d2" "S1" ch2 "dev1" "R1"]
        "S1" "/t").files.length = 1 := by
  have hv1 := validateS_mkEll "d1" "S1" ch1 "dev1" "R1" hc1
  have hv2 := validateS_mkEll "d2" "S1" ch2 "dev1" "R1" hc2
  have hscan : (elliptecScan [mkEll "d1" "S1" ch1 "dev1" "R1",
      mkEll "d2" "S1" ch2 "dev1" "R1"] "S1").1 =
      [mkEllValid "S1" ch1 "dev1" "R1", mkEllValid "S1" ch2 "dev1" "R1"] := by
    rw [elliptecScan_cons, elliptecScan_cons]
    have hs1 : mget (mkEll "d1" "S1" ch1 "dev1" "R1") "ioc_serial" = "S1" := by
      simp [mkEll, mget, List.lookup]
    have hs2 : mget (mkEll "d2" "S1" ch2 "dev1" "R1") "ioc_serial" = "S1" := by
      simp [mkEll, mget, List.lookup]
    simp [elliptecStep, hs1, hs2, hv1, hv2, elliptecScan]
  have hchan : ((elliptecScan [mkEll "d1" "S1" ch1 "dev1" "R1",
      mkEll "d2" "S1" ch2 "dev1" "R1"] "S1").1.map (fun d => mget d "ioc_channel"))
      = [ch1, ch2] := by
    rw [hscan]
    simp [mkEllValid, mget, List.lookup]
  have h0 : (elliptecScan [mkEll "d1" "S1" ch1 "dev1" "R1",
      mkEll "d2" "S1" ch2 "dev1" "R1"] "S1").1 ≠ [] := by
    rw [hscan]
    simp
  have h1 : ((elliptecScan [mkEll "d1" "S1" ch1 "dev1" "R1",
      mkEll "d2" "S1" ch2 "dev1" "R1"] "S1").1.map (fun d => mget d "ioc_channel")).Nodup := by
    rw [hchan]
    simp [hne]
  have h2 : ∀ f ∈ commonFields,
      ∀ a ∈ (elliptecScan [mkEll "d1" "S1" ch1 "dev1" "R1",
          mkEll "d2" "S1" ch2 "dev1" "R1"] "S1").1,
      ∀ b ∈ (elliptecScan [mkEll "d1" "S1" ch1 "dev1" "R1",
          mkEll "d2" "S1" ch2 "dev1" "R1"] "S1").1, mget a f = mget b f := by
    intro f hf a ha b hb
    rw [hscan] at ha hb
    simp only [List.mem_cons, List.not_mem_nil, or_false] at ha hb
    simp only [commonFields, List.mem_cons, List.not_mem_nil, or_false] at hf
    rcases ha with ha | ha <;> rcases hb with hb | hb <;> subst ha <;> subst hb <;>
      (rcases hf with hf | hf | hf | hf <;> subst hf <;>
        simp [mkEllValid, mget, List.lookup])
  obtain ⟨e1, e2⟩ := MakeElliptecConfig_success _ "S1" "/t" h0 h1 h2
  exact ⟨hchan, e1, by rw [e2]; rfl⟩

theorem c10_case_insensitive_channels_witness :
    ("a" : String) ≠ "A" ∧ lowerStr "a" = lowerStr "A" ∧
    (((elliptecScan [mkEll "d1" "S1" "a" "dev1" "R1", mkEll "d2" "S1" "A" "dev1" "R1"]
        "S1").1.map (fun d => mget d "ioc_channel") = ["a", "A"]) ∧
     (MakeElliptecConfig [mkEll "d1" "S1" "a" "dev1" "R1", mkEll "d2" "S1" "A" "dev1" "R1"]
        "S1" "/t").err = none ∧
     (MakeElliptecConfig [mkEll "d1" "S1" "a" "dev1" "R1", mkEll "d2" "S1" "A" "dev1" "R1"]
        "S1" "/t").files.length = 1) :=
  ⟨by decide, by decide,
   c10_case_insensitive_channels "a" "A" (by decide) (by decide) (by decide) (by decide)⟩
